import Mathlib

/-!
Shallow embedding of the killer-bunnies gameplay code
(src/player/farmer.ts, src/environment/garden.ts, src/index.ts).

Conventions of the embedding:
  * TypeScript numbers are modelled as rationals; the claims only depend
    on ordering, addition and min/max, on which exact arithmetic and the
    source agree.
  * Engine-owned side effects (mesh instantiation, sounds, radar blips,
    navigation queries) are external collaborators; they are either
    recorded as ghost output lists, or omitted when no claim mentions
    them.
  * Random draws (Scalar.RandomRange, MathUtil.randomInt, the Config
    random helpers) are external sources of values; each draw is passed
    in as an explicit parameter, so every real execution corresponds to
    some choice of parameters.
-/

namespace KillerBunnies

/-- Babylon Scalar.Clamp(value, lo, hi) = Math.min(hi, Math.max(lo, value)).
External engine helper used by Farmer.modifyHealth. -/
def Scalar.Clamp (value lo hi : ℚ) : ℚ :=
  min hi (max lo value)

/-- The animation states of src/animation/animator.ts used by the Farmer. -/
inductive AnimatorState
  | Run
  | Shoot
  | Idle
  | Death
  | TakeHit
deriving DecidableEq, Repr

/-- Which Animator of the Farmer a play() call targets: the body animator
(this.#_animator) or the weapon animator (this.#_weaponAnimator). -/
inductive AnimTarget
  | body
  | weapon
deriving DecidableEq, Repr

/-- One Animator.play(state, loop) call, recorded as ghost output.
Animator.play has loop = true by default. -/
structure AnimCmd where
  target : AnimTarget
  state : AnimatorState
  loop : Bool
deriving DecidableEq, Repr

/-- The mutable state of the Farmer (src/player/farmer.ts): the six stats,
the three boolean flags, the hit timer, and the character controller's
disabled flag (written by Farmer.update on death). -/
structure Farmer where
  maxHealth : ℚ
  health : ℚ
  movementSpeed : ℚ
  weaponDamage : ℚ
  weaponRange : ℚ
  weaponSpeed : ℚ
  gunCooldown : Bool
  isMoving : Bool
  isFiring : Bool
  hitTimer : ℚ
  controllerDisabled : Bool
deriving DecidableEq, Repr

/-- The per-frame globals read from BabylonStore: the current time and the
frame delta time (external engine state, passed in). -/
structure Env where
  time : ℚ
  deltaTime : ℚ
deriving DecidableEq, Repr

/-- Farmer.modifyHealth: this.#_health = Scalar.Clamp(this.#_health + value, 0, this.maxHealth). -/
def Farmer.modifyHealth (f : Farmer) (value : ℚ) : Farmer :=
  { f with health := Scalar.Clamp (f.health + value) 0 f.maxHealth }

/-- Farmer.modifyMaxHealth: this.#_maxHealth += value; this.modifyHealth(this.health). -/
def Farmer.modifyMaxHealth (f : Farmer) (value : ℚ) : Farmer :=
  let f1 := { f with maxHealth := f.maxHealth + value }
  f1.modifyHealth f1.health

/-- The collidable passed to Farmer.onCollide, abstracting StabberRabbit:
whether it is a StabberRabbit instance, its attacking flag, and its damage. -/
structure Collidable where
  isStabberRabbit : Bool
  attacking : Bool
  damage : ℚ
deriving DecidableEq, Repr

/-- Farmer.onCollide: if the collidable is an attacking StabberRabbit and the
hit timer has elapsed, reset the hit timer to 0.25, subtract the damage from
health, and play TakeHit (non-looping) on the body animator. -/
def Farmer.onCollide (f : Farmer) (c : Collidable) : Farmer × List AnimCmd :=
  if c.isStabberRabbit = true ∧ c.attacking = true ∧ f.hitTimer ≤ 0 then
    ({ f with hitTimer := 0.25, health := f.health - c.damage },
     [⟨.body, .TakeHit, false⟩])
  else
    (f, [])

/-- Farmer.update: on health ≤ 0 play Death (non-looping) and disable the
character controller; otherwise, when not firing play Idle on the weapon
animator and, when additionally not moving and the hit timer has elapsed,
play Idle on the body animator; then decrement the hit timer by deltaTime.
(RadarManager.updateBlip is an external call with no modelled state.) -/
def Farmer.update (env : Env) (f : Farmer) : Farmer × List AnimCmd :=
  if f.health ≤ 0 then
    ({ f with controllerDisabled := true }, [⟨.body, .Death, false⟩])
  else
    let cmds :=
      if f.isFiring = false then
        ⟨.weapon, .Idle, true⟩ ::
          (if f.isMoving = false ∧ f.hitTimer ≤ 0 then [⟨AnimTarget.body, .Idle, true⟩] else [])
      else []
    ({ f with hitTimer := f.hitTimer - env.deltaTime }, cmds)

/-- The CharacterController events the Farmer subscribes to
(onMove, onMoveEnd, onFire, onFireEnd), plus the deferred
window.setTimeout cooldown callback scheduled by the onFire handler. -/
inductive FarmerEvent
  | move
  | moveEnd
  | fire
  | fireEnd
  | cooldownTimeout
deriving DecidableEq, Repr

/-- The Farmer's event handlers, returning the new state, whether a Bullet
was constructed, and the animation plays issued.  onFire: set the firing
flag, play Shoot on the weapon animator (and on the body animator when not
moving); return early when the gun cooldown flag is set; otherwise construct
a Bullet, set the cooldown flag and schedule the timeout that clears it.
(onMove also updates the position through Navigation, an external call.) -/
def Farmer.handleEvent (f : Farmer) (e : FarmerEvent) : Farmer × Bool × List AnimCmd :=
  match e with
  | .move => ({ f with isMoving := true }, false, [⟨.body, .Run, true⟩])
  | .moveEnd => ({ f with isMoving := false }, false, [])
  | .fire =>
    let f1 := { f with isFiring := true }
    let cmds := ⟨AnimTarget.weapon, .Shoot, true⟩ ::
      (if f1.isMoving = false then [⟨AnimTarget.body, .Shoot, true⟩] else [])
    if f1.gunCooldown then
      (f1, false, cmds)
    else
      ({ f1 with gunCooldown := true }, true, cmds)
  | .fireEnd => ({ f with isFiring := false }, false, [])
  | .cooldownTimeout => ({ f with gunCooldown := false }, false, [])

/-- Run a sequence of events through the Farmer's handlers. -/
def Farmer.runEvents (f : Farmer) (evs : List FarmerEvent) : Farmer :=
  evs.foldl (fun g e => (Farmer.handleEvent g e).1) f

/-- Whether handling event e in state f constructs a Bullet. -/
def Farmer.firesBullet (f : Farmer) (e : FarmerEvent) : Bool :=
  (Farmer.handleEvent f e).2.1

/-- A TransformNode position (Vector3); .clone() is the identity on values. -/
abbrev Pos := ℚ × ℚ × ℚ

/-- The state of one Burrow (src/index.ts): an object identity standing for
the JavaScript reference (used by the !== test in dispose), the position of
the parent TransformNode it was spawned at, the absolute self-disposal time,
and the countdown spawn timer. -/
structure Burrow where
  id : ℕ
  parentPos : Pos
  disposeTime : ℚ
  spawnTimer : ℚ
deriving DecidableEq, Repr

/-- The world the Burrow class acts on: the process-wide static list
Burrow._burrows, plus ghost records of the StabberRabbit spawns (by spawn
position), the root-mesh disposals and the update() invocations (by burrow
identity). -/
structure BurrowWorld where
  burrows : List Burrow
  spawnedRabbits : List Pos
  disposedRoots : List ℕ
  updatedIds : List ℕ
deriving DecidableEq, Repr

/-- Burrow.dispose: this.#_root.dispose();
Burrow._burrows = Burrow._burrows.filter(bur => bur !== this).
Reference inequality bur !== this is object-identity inequality. -/
def Burrow.dispose (b : Burrow) (w : BurrowWorld) : BurrowWorld :=
  { w with
    disposedRoots := w.disposedRoots ++ [b.id],
    burrows := w.burrows.filter (fun x => x.id != b.id) }

/-- Burrow.update: if the dispose time has passed, dispose; otherwise
decrement the spawn timer by the frame delta and, when it reaches zero or
below, construct a StabberRabbit at the parent position and reset the timer
to Config.burrow.randomSpawnFrequency(), modelled by the draw rand.
The mutation of this.#_spawnTimer is written back into the static list at
this burrow's identity.  The update() call itself is recorded in the ghost
updatedIds list. -/
def Burrow.update (env : Env) (rand : ℚ) (b : Burrow) (w : BurrowWorld) : BurrowWorld :=
  let w0 := { w with updatedIds := w.updatedIds ++ [b.id] }
  if b.disposeTime < env.time then
    b.dispose w0
  else
    let t := b.spawnTimer - env.deltaTime
    if t ≤ 0 then
      let b1 := { b with spawnTimer := rand }
      { w0 with
        burrows := w0.burrows.map (fun x => if x.id = b.id then b1 else x),
        spawnedRabbits := w0.spawnedRabbits ++ [b.parentPos] }
    else
      let b1 := { b with spawnTimer := t }
      { w0 with burrows := w0.burrows.map (fun x => if x.id = b.id then b1 else x) }

/-- Burrow.modifyDifficulty: newMax = spawnTimer - spawnFrequency.min * modifier;
spawnTimer = Scalar.RandomRange(spawnFrequency.max, newMax).  RandomRange is
an external random draw between its two arguments, modelled by rangeDraw. -/
def Burrow.modifyDifficulty (b : Burrow) (modifier spawnFreqMin rangeDraw : ℚ) : Burrow :=
  let _newMax := b.spawnTimer - spawnFreqMin * modifier
  { b with spawnTimer := rangeDraw }

/-- The Burrow constructor: play a sound (external), instantiate the root
mesh under the parent (identity id stands for the new object), set the
dispose time to BabylonStore.time + Config.burrow.randomTimeLimit()
(modelled by timeLimitDraw), set the spawn timer to
Config.stabberRabbit.randomSpawnFrequency() (modelled by spawnFreqDraw),
push this onto the static list, then call
modifyDifficulty(round.getDifficultyModifier()). -/
def Burrow.construct (env : Env) (timeLimitDraw spawnFreqDraw modifier spawnFreqMin rangeDraw : ℚ)
    (id : ℕ) (parentPos : Pos) (w : BurrowWorld) : Burrow × BurrowWorld :=
  let b : Burrow :=
    { id := id, parentPos := parentPos,
      disposeTime := env.time + timeLimitDraw,
      spawnTimer := spawnFreqDraw }
  let w1 := { w with burrows := w.burrows ++ [b] }
  let b1 := b.modifyDifficulty modifier spawnFreqMin rangeDraw
  (b1, { w1 with burrows := w1.burrows.map (fun x => if x.id = b.id then b1 else x) })

/-- The loop of Burrow.updateAll:
for(let i = 0; i < this._burrows.length; i++) this._burrows[i].update().
The length is re-read from the current list on every iteration.  The loop
body runs at most once per initial list element (i only grows and the list
never grows), so the structural fuel never runs out when updateAll supplies
length + 1.  rnds gives the random spawn-frequency draw available to the
i-th iteration. -/
def Burrow.updateAllLoop (env : Env) (rnds : ℕ → ℚ) : ℕ → ℕ → BurrowWorld → BurrowWorld
  | 0, _, w => w
  | fuel + 1, i, w =>
    if h : i < w.burrows.length then
      Burrow.updateAllLoop env rnds fuel (i + 1)
        (Burrow.update env (rnds i) (w.burrows.get ⟨i, h⟩) w)
    else w

/-- Burrow.updateAll. -/
def Burrow.updateAll (env : Env) (rnds : ℕ → ℚ) (w : BurrowWorld) : BurrowWorld :=
  Burrow.updateAllLoop env rnds (w.burrows.length + 1) 0 w

/-- The loop of Burrow.disposeAll:
while(this._burrows.length > 0) this._burrows[0].dispose().
Each iteration removes the head from the list (dispose filters out its own
identity), so fuel = initial length suffices. -/
def Burrow.disposeAllLoop : ℕ → BurrowWorld → BurrowWorld
  | 0, w => w
  | fuel + 1, w =>
    match w.burrows with
    | [] => w
    | b :: _ => Burrow.disposeAllLoop fuel (b.dispose w)

/-- Burrow.disposeAll. -/
def Burrow.disposeAll (w : BurrowWorld) : BurrowWorld :=
  Burrow.disposeAllLoop w.burrows.length w

/-- A TransformNode in one of the Garden spawn-point arrays: an identity and
the number of meshes getChildMeshes() returns for it. -/
structure TNode where
  id : ℕ
  childMeshes : ℕ
deriving DecidableEq, Repr

/-- The Garden fields the claims touch: the burrow and carrot spawn-point
arrays. -/
structure Garden where
  burrowSpawnPoints : List TNode
  carrotSpawnPoints : List TNode
deriving DecidableEq, Repr

/-- The negation of the while condition of the Garden retry loops:
!( !node || node.getChildMeshes().length != 0 ), i.e. the node is defined
and is a free spawn point (no attached child meshes). -/
def nodeIsFree : Option TNode → Bool
  | some n => n.childMeshes == 0
  | none => false

/-- The retry loop shared by Garden.getRandomBurrowNode and
Garden.getRandomCarrotNode:
  while(!node || node.getChildMeshes().length != 0)
    node = points[MathUtil.randomInt(0, points.length - 1)];
Each draw in draws is one return value of MathUtil.randomInt, used as the
array index; an out-of-range index reads undefined (none), which keeps the
loop going.  An exhausted draw list means the loop is still running: none. -/
def randomNodeLoop (points : List TNode) (draws : List ℕ) (node : Option TNode) : Option TNode :=
  if nodeIsFree node then
    node
  else
    match draws with
    | [] => none
    | d :: rest => randomNodeLoop points rest points[d]?

/-- Garden.getRandomBurrowNode, with the random draws made explicit. -/
def Garden.getRandomBurrowNode (g : Garden) (draws : List ℕ) : Option TNode :=
  randomNodeLoop g.burrowSpawnPoints draws none

/-- Garden.getRandomCarrotNode, with the random draws made explicit. -/
def Garden.getRandomCarrotNode (g : Garden) (draws : List ℕ) : Option TNode :=
  randomNodeLoop g.carrotSpawnPoints draws none

/-! Concrete states used to instantiate the theorems below. -/

/-- A healthy Farmer with 5 health out of 100 and an elapsed hit timer. -/
def farmer0 : Farmer :=
  { maxHealth := 100
    health := 5
    movementSpeed := 7
    weaponDamage := 8
    weaponRange := 9
    weaponSpeed := 11
    gunCooldown := false
    isMoving := false
    isFiring := false
    hitTimer := 0
    controllerDisabled := false }

/-- A Farmer with no health left. -/
def farmerDead : Farmer := { farmer0 with health := 0 }

/-- A Farmer whose gun cooldown flag is set. -/
def farmerCool : Farmer := { farmer0 with gunCooldown := true }

/-- An attacking StabberRabbit doing 10 damage. -/
def rabbit0 : Collidable := { isStabberRabbit := true, attacking := true, damage := 10 }

/-- Frame globals with the clock already at 10. -/
def envLate : Env := { time := 10, deltaTime := 1 }

/-- Frame globals with the clock still at 1. -/
def envEarly : Env := { time := 1, deltaTime := 2 }

/-- Frame globals with the clock at 1 and a large frame delta. -/
def envBig : Env := { time := 1, deltaTime := 4 }

/-- A burrow with identity 0, due for disposal at time 5. -/
def burA : Burrow := { id := 0, parentPos := (0, 0, 0), disposeTime := 5, spawnTimer := 3 }

/-- A burrow with identity 1, due for disposal at time 5. -/
def burB : Burrow := { id := 1, parentPos := (1, 0, 0), disposeTime := 5, spawnTimer := 3 }

/-- A world whose static list holds the two burrows above. -/
def wPair : BurrowWorld :=
  { burrows := [burA, burB], spawnedRabbits := [], disposedRoots := [], updatedIds := [] }

/-- A garden with one occupied and one free burrow spawn point, and one
occupied and one free carrot spawn point. -/
def garden0 : Garden :=
  { burrowSpawnPoints := [⟨0, 2⟩, ⟨1, 0⟩], carrotSpawnPoints := [⟨3, 1⟩, ⟨2, 0⟩] }

/-- A garden in which every spawn point has attached child meshes. -/
def gardenBusy : Garden :=
  { burrowSpawnPoints := [⟨0, 2⟩, ⟨1, 1⟩], carrotSpawnPoints := [⟨2, 3⟩] }

/-! Helper lemmas. -/

/-- Clamping into [0, m] lands in [0, m] when the interval is inhabited. -/
theorem Scalar.Clamp_mem (x m : ℚ) (hm : 0 ≤ m) :
    0 ≤ Scalar.Clamp x 0 m ∧ Scalar.Clamp x 0 m ≤ m :=
  ⟨le_min hm (le_max_left 0 x), min_le_left m _⟩

/-! Claim theorems. -/

/-- C5: Farmer.modifyHealth(value) sets health to the clamp of
health + value into [0, maxHealth] and changes none of the other stats. -/
theorem c5_modifyHealth_clamps_and_changes_nothing_else (f : Farmer) (v : ℚ) :
    (f.modifyHealth v).health = Scalar.Clamp (f.health + v) 0 f.maxHealth ∧
    (f.modifyHealth v).maxHealth = f.maxHealth ∧
    (f.modifyHealth v).movementSpeed = f.movementSpeed ∧
    (f.modifyHealth v).weaponDamage = f.weaponDamage ∧
    (f.modifyHealth v).weaponRange = f.weaponRange ∧
    (f.modifyHealth v).weaponSpeed = f.weaponSpeed :=
  ⟨rfl, rfl, rfl, rfl, rfl, rfl⟩

/-- C9: Farmer.modifyMaxHealth(value) adds value to maxHealth and then feeds
the current health back through modifyHealth, so for health ≥ 0 the
resulting health is the clamp of twice the old health into
[0, old maxHealth + value]. -/
theorem c9_modifyMaxHealth_doubles_health (f : Farmer) (v : ℚ) (_h : 0 ≤ f.health) :
    (f.modifyMaxHealth v).health = Scalar.Clamp (2 * f.health) 0 (f.maxHealth + v) ∧
    (f.modifyMaxHealth v).maxHealth = f.maxHealth + v := by
  refine ⟨?_, rfl⟩
  show Scalar.Clamp (f.health + f.health) 0 (f.maxHealth + v) = _
  rw [two_mul]

/-- Witness for C9 at a concrete input: farmer0 has health 5 ≥ 0, and after
modifyMaxHealth(-60) its health is clamp(10, 0, 40). -/
theorem c9_modifyMaxHealth_doubles_health_witness :
    (farmer0.modifyMaxHealth (-60)).health
        = Scalar.Clamp (2 * farmer0.health) 0 (farmer0.maxHealth + (-60)) ∧
    (farmer0.modifyMaxHealth (-60)).maxHealth = farmer0.maxHealth + (-60) :=
  c9_modifyMaxHealth_doubles_health farmer0 (-60) (by decide)

/-- C1 counterexample: in the concrete state farmer0 the health 5 lies in
[0, 100], yet onCollide with an attacking StabberRabbit doing 10 damage
leaves health at -5, outside [0, maxHealth]: onCollide subtracts the damage
without any clamping. -/
theorem c1_onCollide_escapes_health_bound :
    (0 ≤ farmer0.health ∧ farmer0.health ≤ farmer0.maxHealth) ∧
    ¬ (0 ≤ (farmer0.onCollide rabbit0).1.health ∧
        (farmer0.onCollide rabbit0).1.health ≤ (farmer0.onCollide rabbit0).1.maxHealth) := by
  constructor
  · exact ⟨by decide, by decide⟩
  · intro hcontra
    have h0 := hcontra.1
    rw [show (farmer0.onCollide rabbit0).1.health = 5 - 10 by
      norm_num [Farmer.onCollide, farmer0, rabbit0]] at h0
    norm_num at h0

/-- C1 amended: modifyHealth and modifyMaxHealth keep health inside
[0, maxHealth] whenever the (new) maxHealth is nonnegative, and update never
touches health or maxHealth; onCollide, however, subtracts the attacking
rabbit damage from health with no clamping at all, so the bound can fail
there. -/
theorem c1_health_clamping_amended (f : Farmer) (v : ℚ) (env : Env) (c : Collidable) :
    (0 ≤ f.maxHealth →
      0 ≤ (f.modifyHealth v).health ∧
        (f.modifyHealth v).health ≤ (f.modifyHealth v).maxHealth) ∧
    (0 ≤ f.maxHealth + v →
      0 ≤ (f.modifyMaxHealth v).health ∧
        (f.modifyMaxHealth v).health ≤ (f.modifyMaxHealth v).maxHealth) ∧
    ((Farmer.update env f).1.health = f.health ∧
      (Farmer.update env f).1.maxHealth = f.maxHealth) ∧
    ((f.onCollide c).1.health =
      if c.isStabberRabbit = true ∧ c.attacking = true ∧ f.hitTimer ≤ 0 then
        f.health - c.damage
      else f.health) := by
  refine ⟨?_, ?_, ?_, ?_⟩
  · intro hm
    exact Scalar.Clamp_mem (f.health + v) f.maxHealth hm
  · intro hm
    exact Scalar.Clamp_mem (f.health + f.health) (f.maxHealth + v) hm
  · unfold Farmer.update
    split <;> exact ⟨rfl, rfl⟩
  · unfold Farmer.onCollide
    split <;> rfl

/-- Witness for C1 amended at concrete inputs: farmer0 with maxHealth 100,
value 1, the late frame globals, and the attacking rabbit. -/
theorem c1_health_clamping_amended_witness :
    (0 ≤ (farmer0.modifyHealth 1).health ∧
      (farmer0.modifyHealth 1).health ≤ (farmer0.modifyHealth 1).maxHealth) ∧
    (0 ≤ (farmer0.modifyMaxHealth 1).health ∧
      (farmer0.modifyMaxHealth 1).health ≤ (farmer0.modifyMaxHealth 1).maxHealth) ∧
    ((Farmer.update envLate farmer0).1.health = farmer0.health ∧
      (Farmer.update envLate farmer0).1.maxHealth = farmer0.maxHealth) ∧
    ((farmer0.onCollide rabbit0).1.health =
      if rabbit0.isStabberRabbit = true ∧ rabbit0.attacking = true ∧ farmer0.hitTimer ≤ 0 then
        farmer0.health - rabbit0.damage
      else farmer0.health) := by
  have h := c1_health_clamping_amended farmer0 1 envLate rabbit0
  exact ⟨h.1 (by decide), h.2.1 (by norm_num [farmer0]), h.2.2.1, h.2.2.2⟩

/-- Soundness of the Garden retry loop: whatever node it returns came out of
the spawn-point array and has no attached child meshes. -/
theorem randomNodeLoop_sound (points : List TNode) :
    ∀ (draws : List ℕ) (node : Option TNode) (n : TNode),
      (∀ m, node = some m → m ∈ points) →
      randomNodeLoop points draws node = some n →
      n ∈ points ∧ n.childMeshes = 0 := by
  intro draws
  induction draws with
  | nil =>
    intro node n hmem h
    rw [randomNodeLoop.eq_def] at h
    by_cases hf : nodeIsFree node = true
    · rw [if_pos hf] at h
      subst h
      refine ⟨hmem n rfl, ?_⟩
      simpa [nodeIsFree] using hf
    · rw [if_neg hf] at h
      exact absurd h (by simp)
  | cons d rest ih =>
    intro node n hmem h
    rw [randomNodeLoop.eq_def] at h
    by_cases hf : nodeIsFree node = true
    · rw [if_pos hf] at h
      subst h
      refine ⟨hmem n rfl, ?_⟩
      simpa [nodeIsFree] using hf
    · rw [if_neg hf] at h
      exact ih points[d]? n (fun m hm => List.getElem?_mem hm) h

/-- When every spawn point is occupied, the retry loop is still running when
any finite list of draws has been consumed. -/
theorem randomNodeLoop_stuck (points : List TNode)
    (hall : ∀ m ∈ points, m.childMeshes ≠ 0) :
    ∀ (draws : List ℕ) (node : Option TNode),
      (∀ m, node = some m → m ∈ points) →
      randomNodeLoop points draws node = none := by
  intro draws
  induction draws with
  | nil =>
    intro node hmem
    rw [randomNodeLoop.eq_def]
    have hf : nodeIsFree node = false := by
      cases node with
      | none => rfl
      | some m => simpa [nodeIsFree] using hall m (hmem m rfl)
    rw [if_neg (by simp [hf])]
  | cons d rest ih =>
    intro node hmem
    rw [randomNodeLoop.eq_def]
    have hf : nodeIsFree node = false := by
      cases node with
      | none => rfl
      | some m => simpa [nodeIsFree] using hall m (hmem m rfl)
    rw [if_neg (by simp [hf])]
    exact ih points[d]? (fun m hm => List.getElem?_mem hm)

/-- Drawing the index of a free spawn point makes the retry loop return it
immediately. -/
theorem randomNodeLoop_hits (points : List TNode) (i : ℕ) (hi : i < points.length)
    (hfree : points[i].childMeshes = 0) :
    randomNodeLoop points [i] none = some points[i] := by
  rw [randomNodeLoop.eq_def]
  rw [if_neg (by simp [nodeIsFree])]
  show randomNodeLoop points [] points[i]? = _
  rw [List.getElem?_eq_getElem hi]
  rw [randomNodeLoop.eq_def]
  rw [if_pos (by simp [nodeIsFree, hfree])]

/-- C2: any node returned by getRandomBurrowNode is an element of the burrow
spawn-point array with no attached child meshes, and likewise for
getRandomCarrotNode over the carrot spawn-point array. -/
theorem c2_returned_nodes_are_free_spawn_points
    (g : Garden) (draws : List ℕ) (n : TNode) :
    (g.getRandomBurrowNode draws = some n →
      n ∈ g.burrowSpawnPoints ∧ n.childMeshes = 0) ∧
    (g.getRandomCarrotNode draws = some n →
      n ∈ g.carrotSpawnPoints ∧ n.childMeshes = 0) :=
  ⟨fun h => randomNodeLoop_sound g.burrowSpawnPoints draws none n (by intro m hm; cases hm) h,
   fun h => randomNodeLoop_sound g.carrotSpawnPoints draws none n (by intro m hm; cases hm) h⟩

/-- Witness for C2 on garden0: the draw 1 returns the free node of each
array, and the theorem places it in the array with zero child meshes. -/
theorem c2_returned_nodes_are_free_spawn_points_witness :
    ((⟨1, 0⟩ : TNode) ∈ garden0.burrowSpawnPoints ∧ (⟨1, 0⟩ : TNode).childMeshes = 0) ∧
    ((⟨2, 0⟩ : TNode) ∈ garden0.carrotSpawnPoints ∧ (⟨2, 0⟩ : TNode).childMeshes = 0) :=
  ⟨(c2_returned_nodes_are_free_spawn_points garden0 [1] ⟨1, 0⟩).1 (by decide),
   (c2_returned_nodes_are_free_spawn_points garden0 [1] ⟨2, 0⟩).2 (by decide)⟩

/-- C10: each Garden retry loop can terminate (for a suitable random draw)
exactly when its array holds a node with no attached child meshes: with a
free node present some draw sequence returns it, and with every spawn point
occupied the loop outlives every finite draw sequence. -/
theorem c10_retry_loop_termination (g : Garden) :
    ((∃ n ∈ g.burrowSpawnPoints, n.childMeshes = 0) →
      ∃ draws n, g.getRandomBurrowNode draws = some n) ∧
    ((∀ n ∈ g.burrowSpawnPoints, n.childMeshes ≠ 0) →
      ∀ draws, g.getRandomBurrowNode draws = none) ∧
    ((∃ n ∈ g.carrotSpawnPoints, n.childMeshes = 0) →
      ∃ draws n, g.getRandomCarrotNode draws = some n) ∧
    ((∀ n ∈ g.carrotSpawnPoints, n.childMeshes ≠ 0) →
      ∀ draws, g.getRandomCarrotNode draws = none) := by
  refine ⟨?_, ?_, ?_, ?_⟩
  · rintro ⟨n, hn, hfree⟩
    obtain ⟨i, hi, rfl⟩ := List.mem_iff_getElem.mp hn
    exact ⟨[i], _, randomNodeLoop_hits g.burrowSpawnPoints i hi hfree⟩
  · intro hall draws
    exact randomNodeLoop_stuck g.burrowSpawnPoints hall draws none (by intro m hm; cases hm)
  · rintro ⟨n, hn, hfree⟩
    obtain ⟨i, hi, rfl⟩ := List.mem_iff_getElem.mp hn
    exact ⟨[i], _, randomNodeLoop_hits g.carrotSpawnPoints i hi hfree⟩
  · intro hall draws
    exact randomNodeLoop_stuck g.carrotSpawnPoints hall draws none (by intro m hm; cases hm)

/-- Witness for C10: garden0 has free spawn points, so both of its loops can
return; gardenBusy has none, so its loops return nothing on the concrete
draw lists [0, 1] and [0]. -/
theorem c10_retry_loop_termination_witness :
    (∃ draws n, garden0.getRandomBurrowNode draws = some n) ∧
    (∃ draws n, garden0.getRandomCarrotNode draws = some n) ∧
    gardenBusy.getRandomBurrowNode [0, 1] = none ∧
    gardenBusy.getRandomCarrotNode [0] = none :=
  ⟨(c10_retry_loop_termination garden0).1 (by decide),
   (c10_retry_loop_termination garden0).2.2.1 (by decide),
   (c10_retry_loop_termination gardenBusy).2.1 (by decide) [0, 1],
   (c10_retry_loop_termination gardenBusy).2.2.2 (by decide) [0]⟩

/-- C8: Farmer.update selects the animation state directly from the flags:
with health ≤ 0 it plays Death (non-looping) on the body animator and
disables the character controller; with positive health and the firing flag
clear the weapon animator plays Idle, and when additionally the moving flag
is clear and the hit timer has elapsed the body animator plays Idle too. -/
theorem c8_update_animation_selection (env : Env) (f : Farmer) :
    (f.health ≤ 0 →
      Farmer.update env f =
        ({ f with controllerDisabled := true },
         [⟨AnimTarget.body, AnimatorState.Death, false⟩])) ∧
    (¬ f.health ≤ 0 → f.isFiring = false →
      ⟨AnimTarget.weapon, AnimatorState.Idle, true⟩ ∈ (Farmer.update env f).2 ∧
      (f.isMoving = false → f.hitTimer ≤ 0 →
        ⟨AnimTarget.body, AnimatorState.Idle, true⟩ ∈ (Farmer.update env f).2)) := by
  constructor
  · intro h
    unfold Farmer.update
    rw [if_pos h]
  · intro h hfire
    unfold Farmer.update
    rw [if_neg h]
    refine ⟨?_, ?_⟩
    · simp [hfire]
    · intro hmove htimer
      simp [hfire, hmove, htimer]

/-- Witness for C8: farmerDead takes the Death branch under the late frame
globals, and farmer0 (alive, not firing, not moving, elapsed hit timer) gets
Idle on both animators. -/
theorem c8_update_animation_selection_witness :
    Farmer.update envLate farmerDead =
      ({ farmerDead with controllerDisabled := true },
       [⟨AnimTarget.body, AnimatorState.Death, false⟩]) ∧
    ⟨AnimTarget.weapon, AnimatorState.Idle, true⟩ ∈ (Farmer.update envLate farmer0).2 ∧
    ⟨AnimTarget.body, AnimatorState.Idle, true⟩ ∈ (Farmer.update envLate farmer0).2 := by
  have hdead := (c8_update_animation_selection envLate farmerDead).1 (by decide)
  have halive := (c8_update_animation_selection envLate farmer0).2 (by decide) (by decide)
  exact ⟨hdead, halive.1, halive.2 (by decide) (by decide)⟩

/-- While the gun cooldown flag is set, no event other than the deferred
cooldown callback can clear it, and no bullet is produced. -/
theorem gunCooldown_persists (l : List FarmerEvent) :
    ∀ f : Farmer, f.gunCooldown = true → FarmerEvent.cooldownTimeout ∉ l →
      (Farmer.runEvents f l).gunCooldown = true := by
  induction l with
  | nil => intro f hc _; exact hc
  | cons e t ih =>
    intro f hc hnt
    have he : e ≠ FarmerEvent.cooldownTimeout := by
      intro h
      exact hnt (h ▸ List.mem_cons_self e t)
    have hstep : (Farmer.handleEvent f e).1.gunCooldown = true := by
      cases e with
      | move => exact hc
      | moveEnd => exact hc
      | fire => simp [Farmer.handleEvent, hc]
      | fireEnd => exact hc
      | cooldownTimeout => exact absurd rfl he
    have hrun : Farmer.runEvents f (e :: t) = Farmer.runEvents (Farmer.handleEvent f e).1 t := rfl
    rw [hrun]
    exact ih (Farmer.handleEvent f e).1 hstep (fun hm => hnt (List.mem_cons_of_mem e hm))

/-- A bullet is produced only by an onFire event finding the cooldown flag
clear, and producing it sets the flag. -/
theorem firesBullet_inversion (f : Farmer) (e : FarmerEvent)
    (h : Farmer.firesBullet f e = true) :
    f.gunCooldown = false ∧ e = FarmerEvent.fire ∧
      (Farmer.handleEvent f e).1.gunCooldown = true := by
  cases e with
  | move => exact absurd h (by simp [Farmer.firesBullet, Farmer.handleEvent])
  | moveEnd => exact absurd h (by simp [Farmer.firesBullet, Farmer.handleEvent])
  | fireEnd => exact absurd h (by simp [Farmer.firesBullet, Farmer.handleEvent])
  | cooldownTimeout => exact absurd h (by simp [Farmer.firesBullet, Farmer.handleEvent])
  | fire =>
    by_cases hc : f.gunCooldown = true
    · exact absurd h (by simp [Farmer.firesBullet, Farmer.handleEvent, hc])
    · refine ⟨by simpa using hc, rfl, ?_⟩
      simp [Farmer.handleEvent, Bool.eq_false_iff.mpr hc]

/-- C6: an onFire event with the cooldown flag set produces no Bullet and
leaves the flag set; a Bullet is produced only with the flag clear and its
production sets the flag; hence between any two Bullet productions in an
event trace the deferred cooldown callback must have run. -/
theorem c6_gun_cooldown_protocol (f : Farmer) (e e1 e2 : FarmerEvent)
    (l1 l2 : List FarmerEvent) :
    (f.gunCooldown = true →
      Farmer.firesBullet f FarmerEvent.fire = false ∧
      (Farmer.handleEvent f FarmerEvent.fire).1.gunCooldown = true) ∧
    (Farmer.firesBullet f e = true →
      f.gunCooldown = false ∧ e = FarmerEvent.fire ∧
        (Farmer.handleEvent f e).1.gunCooldown = true) ∧
    (Farmer.firesBullet (Farmer.runEvents f l1) e1 = true →
      Farmer.firesBullet (Farmer.runEvents f (l1 ++ e1 :: l2)) e2 = true →
      FarmerEvent.cooldownTimeout ∈ l2) := by
  refine ⟨?_, firesBullet_inversion f e, ?_⟩
  · intro hc
    exact ⟨by simp [Farmer.firesBullet, Farmer.handleEvent, hc],
           by simp [Farmer.handleEvent, hc]⟩
  · intro h1 h2
    by_contra hnt
    have hset := (firesBullet_inversion (Farmer.runEvents f l1) e1 h1).2.2
    have hsplit : Farmer.runEvents f (l1 ++ e1 :: l2)
        = Farmer.runEvents (Farmer.handleEvent (Farmer.runEvents f l1) e1).1 l2 := by
      unfold Farmer.runEvents
      rw [List.foldl_append]
      rfl
    have hstill : (Farmer.runEvents f (l1 ++ e1 :: l2)).gunCooldown = true := by
      rw [hsplit]
      exact gunCooldown_persists l2 _ hset hnt
    have hclear := (firesBullet_inversion _ e2 h2).1
    rw [hstill] at hclear
    exact Bool.true_eq_false.mp hclear

/-- Witness for C6: with the cooldown flag set no bullet comes out; farmer0
fires a bullet; and in the concrete trace fire, cooldownTimeout, fire the
theorem finds the callback between the two bullets. -/
theorem c6_gun_cooldown_protocol_witness :
    (Farmer.firesBullet farmerCool FarmerEvent.fire = false ∧
      (Farmer.handleEvent farmerCool FarmerEvent.fire).1.gunCooldown = true) ∧
    (farmer0.gunCooldown = false ∧ (FarmerEvent.fire : FarmerEvent) = FarmerEvent.fire ∧
      (Farmer.handleEvent farmer0 FarmerEvent.fire).1.gunCooldown = true) ∧
    FarmerEvent.cooldownTimeout ∈ [FarmerEvent.cooldownTimeout] := by
  have h := c6_gun_cooldown_protocol farmer0 FarmerEvent.fire FarmerEvent.fire FarmerEvent.fire
    [] [FarmerEvent.cooldownTimeout]
  have hcool := c6_gun_cooldown_protocol farmerCool FarmerEvent.fire FarmerEvent.fire
    FarmerEvent.fire [] [FarmerEvent.cooldownTimeout]
  exact ⟨(hcool.1 (by decide)), h.2.1 (by decide), h.2.2 (by decide) (by decide)⟩

/-- C4: Burrow.update either disposes or ticks the spawn timer: past the
self-disposal deadline (fixed at construction as the construction-time clock
plus the random time limit) it removes the burrow and spawns nothing;
otherwise it decrements the spawn timer by the frame delta and, at zero or
below, records exactly one StabberRabbit spawn at the parent position and
resets the timer to the fresh random spawn frequency rand. -/
theorem c4_burrow_update_behavior (env : Env) (rand : ℚ) (b : Burrow) (w : BurrowWorld)
    (tl sf md sfm rd : ℚ) (nid : ℕ) (p : Pos) (w0 : BurrowWorld) :
    (b.disposeTime < env.time →
      (Burrow.update env rand b w).spawnedRabbits = w.spawnedRabbits ∧
      (Burrow.update env rand b w).disposedRoots = w.disposedRoots ++ [b.id] ∧
      (∀ x ∈ (Burrow.update env rand b w).burrows, x.id ≠ b.id) ∧
      (∀ x ∈ w.burrows, x.id ≠ b.id → x ∈ (Burrow.update env rand b w).burrows)) ∧
    (¬ b.disposeTime < env.time →
      (Burrow.update env rand b w).disposedRoots = w.disposedRoots ∧
      (b.spawnTimer - env.deltaTime ≤ 0 →
        (Burrow.update env rand b w).spawnedRabbits = w.spawnedRabbits ++ [b.parentPos] ∧
        (∀ x ∈ (Burrow.update env rand b w).burrows, x.id = b.id → x.spawnTimer = rand)) ∧
      (¬ b.spawnTimer - env.deltaTime ≤ 0 →
        (Burrow.update env rand b w).spawnedRabbits = w.spawnedRabbits ∧
        (∀ x ∈ (Burrow.update env rand b w).burrows, x.id = b.id →
          x.spawnTimer = b.spawnTimer - env.deltaTime))) ∧
    (Burrow.construct env tl sf md sfm rd nid p w0).1.disposeTime = env.time + tl := by
  refine ⟨?_, ?_, rfl⟩
  · intro hd
    unfold Burrow.update Burrow.dispose
    rw [if_pos hd]
    refine ⟨rfl, rfl, ?_, ?_⟩
    · intro x hx
      simpa using (List.mem_filter.mp hx).2
    · intro x hx hne
      exact List.mem_filter.mpr ⟨hx, by simpa using hne⟩
  · intro hnd
    by_cases hs : b.spawnTimer - env.deltaTime ≤ 0
    · refine ⟨?_, ?_, ?_⟩
      · simp [Burrow.update, hnd, hs]
      · intro _
        refine ⟨by simp [Burrow.update, hnd, hs], ?_⟩
        intro x hx hid
        have hx2 : x ∈ (w.burrows.map
            (fun y => if y.id = b.id then { b with spawnTimer := rand } else y)) := by
          simpa [Burrow.update, hnd, hs] using hx
        obtain ⟨y, _, rfl⟩ := List.mem_map.mp hx2
        by_cases hy : y.id = b.id
        · simp [hy]
        · rw [if_neg hy] at hid ⊢
          exact absurd hid hy
      · intro hcontra
        exact absurd hs hcontra
    · refine ⟨?_, ?_, ?_⟩
      · simp [Burrow.update, hnd, hs]
      · intro hcontra
        exact absurd hcontra hs
      · intro _
        refine ⟨by simp [Burrow.update, hnd, hs], ?_⟩
        intro x hx hid
        have hx2 : x ∈ (w.burrows.map
            (fun y => if y.id = b.id then { b with spawnTimer := b.spawnTimer - env.deltaTime }
              else y)) := by
          simpa [Burrow.update, hnd, hs] using hx
        obtain ⟨y, _, rfl⟩ := List.mem_map.mp hx2
        by_cases hy : y.id = b.id
        · simp [hy]
        · rw [if_neg hy] at hid ⊢
          exact absurd hid hy

/-- Witness for C4: under the late clock burA is disposed and spawns
nothing; under the early clock with a small delta it only ticks; with a
large delta it spawns exactly one rabbit at its parent position; and a
freshly constructed burrow carries deadline time + limit. -/
theorem c4_burrow_update_behavior_witness :
    ((Burrow.update envLate 7 burA wPair).spawnedRabbits = wPair.spawnedRabbits ∧
      (Burrow.update envLate 7 burA wPair).disposedRoots = wPair.disposedRoots ++ [burA.id]) ∧
    (Burrow.update envEarly 7 burA wPair).spawnedRabbits = wPair.spawnedRabbits ∧
    (Burrow.update envBig 7 burA wPair).spawnedRabbits
      = wPair.spawnedRabbits ++ [burA.parentPos] ∧
    (Burrow.construct envEarly 3 4 1 1 2 9 (0, 0, 0) wPair).1.disposeTime
      = envEarly.time + 3 := by
  have h1 := c4_burrow_update_behavior envLate 7 burA wPair 3 4 1 1 2 9 (0, 0, 0) wPair
  have h2 := c4_burrow_update_behavior envEarly 7 burA wPair 3 4 1 1 2 9 (0, 0, 0) wPair
  have h3 := c4_burrow_update_behavior envBig 7 burA wPair 3 4 1 1 2 9 (0, 0, 0) wPair
  refine ⟨⟨(h1.1 (by decide)).1, (h1.1 (by decide)).2.1⟩, ?_, ?_, h2.2.2⟩
  · exact ((h2.2.1 (by decide)).2.2 (by norm_num [burA, envEarly])).1
  · exact ((h3.2.1 (by decide)).2.1 (by norm_num [burA, envBig])).1

/-- Removing a burrow identity from a duplicate-free list is erasing that
burrow. -/
theorem dispose_filter_eq_erase (b : Burrow) (l : List Burrow)
    (hids : (l.map Burrow.id).Nodup) (hb : b ∈ l) :
    l.filter (fun x => x.id != b.id) = l.erase b := by
  have hnd : l.Nodup := hids.of_map
  rw [hnd.erase_eq_filter b]
  apply List.filter_congr
  intro x hx
  by_cases hxb : x = b
  · subst hxb
    simp
  · have hne : x.id ≠ b.id := fun h => hxb (List.inj_on_of_nodup_map hids hx hb h)
    have h1 : (x.id != b.id) = true := by simpa using hne
    have h2 : (x != b) = true := by simpa using hxb
    rw [h1, h2]

/-- Unfolding equation for the disposeAll loop at positive fuel. -/
theorem disposeAllLoop_succ (n : ℕ) (w : BurrowWorld) :
    Burrow.disposeAllLoop (n + 1) w
      = match w.burrows with
        | [] => w
        | b :: _ => Burrow.disposeAllLoop n (b.dispose w) := rfl

/-- The disposeAll loop empties the static list and disposes the root of
every burrow, in list order, when the identities are duplicate-free. -/
theorem disposeAllLoop_spec :
    ∀ (l : List Burrow) (fuel : ℕ) (w : BurrowWorld),
      w.burrows = l → l.length ≤ fuel → (l.map Burrow.id).Nodup →
      (Burrow.disposeAllLoop fuel w).burrows = [] ∧
      (Burrow.disposeAllLoop fuel w).disposedRoots
        = w.disposedRoots ++ l.map Burrow.id := by
  intro l
  induction l with
  | nil =>
    intro fuel w hw _ _
    cases fuel with
    | zero =>
      refine ⟨hw, ?_⟩
      show w.disposedRoots = w.disposedRoots ++ List.map Burrow.id []
      simp
    | succ n =>
      have hid : Burrow.disposeAllLoop (n + 1) w = w := by
        rw [disposeAllLoop_succ, hw]
      rw [hid]
      exact ⟨hw, by simp⟩
  | cons b t ih =>
    intro fuel w hw hlen hnd
    cases fuel with
    | zero =>
      exact absurd hlen (by simp)
    | succ n =>
      have hstep : Burrow.disposeAllLoop (n + 1) w = Burrow.disposeAllLoop n (b.dispose w) := by
        rw [disposeAllLoop_succ, hw]
      have hdb : (b.dispose w).burrows = t := by
        show List.filter _ w.burrows = t
        rw [hw, dispose_filter_eq_erase b (b :: t) hnd (List.mem_cons_self b t)]
        exact List.erase_cons_head b t
      have hlen2 : t.length ≤ n := by
        simpa using hlen
      have hnd2 : (t.map Burrow.id).Nodup := by
        have h' : (Burrow.id b :: t.map Burrow.id).Nodup := by simpa using hnd
        exact h'.of_cons
      obtain ⟨h1, h2⟩ := ih n (b.dispose w) hdb hlen2 hnd2
      rw [hstep]
      refine ⟨h1, ?_⟩
      rw [h2]
      show (w.disposedRoots ++ [b.id]) ++ t.map Burrow.id = _
      simp

/-- C7: the Burrow constructor appends the new burrow to the static list;
dispose removes exactly that burrow and keeps every other one; disposeAll
disposes the root of every burrow and leaves the static list empty. -/
theorem c7_burrow_registry (env : Env) (tl sf md sfm rd : ℚ) (nid : ℕ) (p : Pos)
    (w : BurrowWorld) (b : Burrow) :
    ((∀ x ∈ w.burrows, x.id ≠ nid) →
      (Burrow.construct env tl sf md sfm rd nid p w).2.burrows
        = w.burrows ++ [(Burrow.construct env tl sf md sfm rd nid p w).1]) ∧
    ((w.burrows.map Burrow.id).Nodup → b ∈ w.burrows →
      (b.dispose w).burrows = w.burrows.erase b ∧
      b ∉ (b.dispose w).burrows ∧
      (∀ x ∈ w.burrows, x ≠ b → x ∈ (b.dispose w).burrows)) ∧
    ((w.burrows.map Burrow.id).Nodup →
      (Burrow.disposeAll w).burrows = [] ∧
      (Burrow.disposeAll w).disposedRoots = w.disposedRoots ++ w.burrows.map Burrow.id) := by
  refine ⟨?_, ?_, ?_⟩
  · intro hfresh
    show (w.burrows ++ [_]).map _ = _
    rw [List.map_append]
    congr 1
    · conv_rhs => rw [← List.map_id w.burrows]
      apply List.map_congr_left
      intro x hx
      rw [if_neg (hfresh x hx)]
      rfl
    · simp [Burrow.construct]
  · intro hnd hb
    have he : (b.dispose w).burrows = w.burrows.erase b := by
      show List.filter _ w.burrows = _
      exact dispose_filter_eq_erase b w.burrows hnd hb
    have hlnd : w.burrows.Nodup := hnd.of_map
    refine ⟨he, ?_, ?_⟩
    · rw [he]
      exact hlnd.not_mem_erase
    · intro x hx hne
      rw [he]
      exact (List.mem_erase_of_ne hne).mpr hx
  · intro hnd
    exact disposeAllLoop_spec w.burrows w.burrows.length w rfl (le_refl _) hnd

/-- Witness for C7 on the two-burrow world with fresh identity 9. -/
theorem c7_burrow_registry_witness :
    ((Burrow.construct envEarly 3 4 1 1 2 9 (0, 0, 0) wPair).2.burrows
      = wPair.burrows ++ [(Burrow.construct envEarly 3 4 1 1 2 9 (0, 0, 0) wPair).1]) ∧
    (burA.dispose wPair).burrows = wPair.burrows.erase burA ∧
    burA ∉ (burA.dispose wPair).burrows ∧
    (Burrow.disposeAll wPair).burrows = [] ∧
    (Burrow.disposeAll wPair).disposedRoots
      = wPair.disposedRoots ++ wPair.burrows.map Burrow.id := by
  have h := c7_burrow_registry envEarly 3 4 1 1 2 9 (0, 0, 0) wPair burA
  have hb := h.2.1 (by decide) (by decide)
  have hd := h.2.2 (by decide)
  exact ⟨h.1 (by decide), hb.1, hb.2.1, hd.1, hd.2⟩

/-- Unfolding equation for the updateAll loop at positive fuel. -/
theorem updateAllLoop_succ (env : Env) (rnds : ℕ → ℚ) (n i : ℕ) (w : BurrowWorld) :
    Burrow.updateAllLoop env rnds (n + 1) i w
      = if h : i < w.burrows.length then
          Burrow.updateAllLoop env rnds n (i + 1)
            (Burrow.update env (rnds i) (w.burrows.get ⟨i, h⟩) w)
        else w := rfl

/-- Writing a burrow back at its own identity leaves the identity sequence
of the list unchanged. -/
theorem map_replace_id (l : List Burrow) (b b1 : Burrow) (hid : b1.id = b.id) :
    (l.map (fun y => if y.id = b.id then b1 else y)).map Burrow.id = l.map Burrow.id := by
  rw [List.map_map]
  apply List.map_congr_left
  intro y _
  by_cases hy : y.id = b.id
  · simp [Function.comp, hy, hid]
  · simp [Function.comp, hy]

/-- Every element after writing a burrow back is the new burrow or an old
element. -/
theorem mem_map_replace (l : List Burrow) (b b1 x : Burrow)
    (hx : x ∈ l.map (fun y => if y.id = b.id then b1 else y)) :
    x = b1 ∨ x ∈ l := by
  obtain ⟨y, hy, rfl⟩ := List.mem_map.mp hx
  by_cases h : y.id = b.id
  · rw [if_pos h]
    exact Or.inl rfl
  · rw [if_neg h]
    exact Or.inr hy

/-- A burrow update that does not dispose keeps the identity sequence,
records exactly one update call, and introduces no new dispose deadline. -/
theorem update_no_dispose (env : Env) (rand : ℚ) (b : Burrow) (w : BurrowWorld)
    (h : ¬ b.disposeTime < env.time) :
    (Burrow.update env rand b w).burrows.map Burrow.id = w.burrows.map Burrow.id ∧
    (Burrow.update env rand b w).updatedIds = w.updatedIds ++ [b.id] ∧
    (∀ x ∈ (Burrow.update env rand b w).burrows,
      x.disposeTime = b.disposeTime ∨ x ∈ w.burrows) := by
  by_cases hs : b.spawnTimer - env.deltaTime ≤ 0
  · have hburrows : (Burrow.update env rand b w).burrows
        = w.burrows.map (fun y => if y.id = b.id then { b with spawnTimer := rand } else y) := by
      simp [Burrow.update, h, hs]
    refine ⟨?_, by simp [Burrow.update, h, hs], ?_⟩
    · rw [hburrows]
      exact map_replace_id w.burrows b _ rfl
    · intro x hx
      rw [hburrows] at hx
      rcases mem_map_replace w.burrows b _ x hx with h1 | h1
      · subst h1
        exact Or.inl rfl
      · exact Or.inr h1
  · have hburrows : (Burrow.update env rand b w).burrows
        = w.burrows.map (fun y => if y.id = b.id then
            { b with spawnTimer := b.spawnTimer - env.deltaTime } else y) := by
      simp [Burrow.update, h, hs]
    refine ⟨?_, by simp [Burrow.update, h, hs], ?_⟩
    · rw [hburrows]
      exact map_replace_id w.burrows b _ rfl
    · intro x hx
      rw [hburrows] at hx
      rcases mem_map_replace w.burrows b _ x hx with h1 | h1
      · subst h1
        exact Or.inl rfl
      · exact Or.inr h1

/-- When no burrow is past its deadline, the updateAll loop starting at
index i records one update call for each remaining burrow, in order. -/
theorem updateAllLoop_no_dispose (env : Env) (rnds : ℕ → ℚ) :
    ∀ (fuel i : ℕ) (w : BurrowWorld),
      (∀ b ∈ w.burrows, ¬ b.disposeTime < env.time) →
      w.burrows.length - i < fuel →
      (Burrow.updateAllLoop env rnds fuel i w).updatedIds
        = w.updatedIds ++ (w.burrows.drop i).map Burrow.id := by
  intro fuel
  induction fuel with
  | zero =>
    intro i w _ hf
    exact absurd hf (Nat.not_lt_zero _)
  | succ n ih =>
    intro i w hnd hf
    rw [updateAllLoop_succ]
    by_cases hi : i < w.burrows.length
    · rw [dif_pos hi]
      have hbmem : w.burrows.get ⟨i, hi⟩ ∈ w.burrows := List.get_mem w.burrows i hi
      have hnb : ¬ (w.burrows.get ⟨i, hi⟩).disposeTime < env.time := hnd _ hbmem
      obtain ⟨hids, hupd, hpres⟩ := update_no_dispose env (rnds i) (w.burrows.get ⟨i, hi⟩) w hnb
      have hlen2 : (Burrow.update env (rnds i) (w.burrows.get ⟨i, hi⟩) w).burrows.length
          = w.burrows.length := by
        have := congrArg List.length hids
        simpa using this
      have hnd2 : ∀ x ∈ (Burrow.update env (rnds i) (w.burrows.get ⟨i, hi⟩) w).burrows,
          ¬ x.disposeTime < env.time := by
        intro x hx
        rcases hpres x hx with h1 | h1
        · rw [h1]
          exact hnb
        · exact hnd x h1
      have hf2 : (Burrow.update env (rnds i) (w.burrows.get ⟨i, hi⟩) w).burrows.length
          - (i + 1) < n := by
        omega
      rw [ih (i + 1) _ hnd2 hf2, hupd]
      have hdrop : ((Burrow.update env (rnds i) (w.burrows.get ⟨i, hi⟩) w).burrows.drop
            (i + 1)).map Burrow.id
          = (w.burrows.drop (i + 1)).map Burrow.id := by
        rw [List.map_drop, List.map_drop, hids]
      rw [hdrop]
      have hcons : w.burrows.drop i = w.burrows[i] :: w.burrows.drop (i + 1) :=
        List.drop_eq_getElem_cons hi
      have hbid : (w.burrows.get ⟨i, hi⟩).id = w.burrows[i].id := rfl
      rw [hcons, List.map_cons, List.append_assoc, List.singleton_append, hbid]
    · rw [dif_neg hi]
      rw [List.drop_eq_nil_of_le (Nat.le_of_not_lt hi)]
      simp

/-- C3 counterexample: in wPair both burrows are past their deadline at the
late clock.  updateAll lets burA dispose itself at index 0, which shifts
burB to index 0; the loop then increments to index 1, past the end, so burB
is in the list when updateAll begins yet its update() is never called. -/
theorem c3_self_dispose_skips_next :
    wPair.updatedIds = [] ∧ burB ∈ wPair.burrows ∧
    ((Burrow.updateAll envLate (fun _ => 7) wPair).updatedIds.count burB.id) = 0 := by
  refine ⟨rfl, by decide, by decide⟩

/-- C3 amended: when no burrow reaches its self-disposal deadline during the
call, updateAll calls update() exactly once on every burrow of the static
list, in order; a burrow that disposes itself makes the index loop skip the
burrow that shifts into its slot. -/
theorem c3_updateAll_each_once_amended (env : Env) (rnds : ℕ → ℚ) (w : BurrowWorld)
    (hnd : ∀ b ∈ w.burrows, ¬ b.disposeTime < env.time) :
    (Burrow.updateAll env rnds w).updatedIds = w.updatedIds ++ w.burrows.map Burrow.id := by
  unfold Burrow.updateAll
  rw [updateAllLoop_no_dispose env rnds (w.burrows.length + 1) 0 w hnd (by omega)]
  simp

/-- Witness for C3 amended: at the early clock neither burrow of wPair is
past its deadline, and updateAll records exactly the update calls [0, 1]. -/
theorem c3_updateAll_each_once_amended_witness :
    (Burrow.updateAll envEarly (fun _ => 7) wPair).updatedIds
      = wPair.updatedIds ++ wPair.burrows.map Burrow.id :=
  c3_updateAll_each_once_amended envEarly (fun _ => 7) wPair (by decide)

end KillerBunnies
